import Mathlib

/-!
Verification development for the i18n4j repository.

The Python sources `i18n_generator.py` and `i18n_extractor.py` are embedded
shallowly: pure functions become Lean functions on `String`/`List Char`,
regular-expression operations are hand-compiled into character-level scanners
(each scanner's doc comment names the regex it implements), network calls are
modelled by an explicit oracle-response parameter, and the file system touched
by `save_config` is modelled by an explicit record of the three paths involved.
-/

namespace I18n4J

/-- Characters matched by Python's `\w` regex class, restricted to the
character ranges this repository's catalogues exercise: ASCII letters, ASCII
digits, the underscore, and the CJK unified ideographs.  (Python's Unicode
`\w` also covers further scripts, none of which occur in the claims.) -/
def isWordChar (c : Char) : Bool :=
  (('a' ≤ c && c ≤ 'z') || ('A' ≤ c && c ≤ 'Z') || ('0' ≤ c && c ≤ '9')
    || c == '_' || (0x4e00 ≤ c.toNat && c.toNat ≤ 0x9fff))

/-- Characters stripped by Python's argument-less `str.strip()` (the ASCII
whitespace set; exotic Unicode whitespace does not occur in the sources). -/
def isPySpace (c : Char) : Bool :=
  c == ' ' || c == '\t' || c == '\n' || c == '\r' || c == '\x0b' || c == '\x0c'

/-- Test whether the list `l` starts with the list `p` (character-level
version of Python `str.startswith`). -/
def listStartsWith : List Char → List Char → Bool
  | _, [] => true
  | [], _ :: _ => false
  | c :: l, p :: ps => c == p && listStartsWith l ps

/-- Python `s.startswith(pre)`. -/
def strStartsWith (s pre : String) : Bool :=
  listStartsWith s.data pre.data

/-- Python `s.endswith(suf)`. -/
def strEndsWith (s suf : String) : Bool :=
  listStartsWith s.data.reverse suf.data.reverse

/-- Python `s[n:]`. -/
def strDrop (s : String) (n : Nat) : String :=
  ⟨s.data.drop n⟩

/-- Python `s[:-n]` (for `n ≤ len(s)`). -/
def strDropRight (s : String) (n : Nat) : String :=
  ⟨(s.data.reverse.drop n).reverse⟩

/-- List-level version of Python `str.strip()`. -/
def pyStripList (l : List Char) : List Char :=
  ((l.dropWhile isPySpace).reverse.dropWhile isPySpace).reverse

/-- Python `str.strip()` with no argument: remove leading and trailing
whitespace. -/
def pyStrip (s : String) : String :=
  ⟨pyStripList s.data⟩

/-- Python `str.strip('_')`: remove leading and trailing underscores. -/
def stripUnderscores (s : String) : String :=
  ⟨((s.data.dropWhile (· == '_')).reverse.dropWhile (· == '_')).reverse⟩

/-- Scanner for `re.findall(r'\{\w*\d*\w*\}', text)` from
`i18n_generator.count_placeholders` (src/i18n_generator.py line 39).  Since
`\d ⊆ \w`, the pattern `\{\w*\d*\w*\}` matches exactly an opening brace, a
(maximal) run of word characters, and a closing brace; `findall` scans left to
right, resuming after each match, and after a failed match attempt at an
opening brace it resumes one character later, i.e. inside the word run, where
no new match can begin before the next brace. -/
def phScan : Nat → List Char → Nat
  | 0, _ => 0
  | _, [] => 0
  | fuel + 1, c :: rest =>
    if c == '\x7b' then
      match rest.dropWhile isWordChar with
      | '\x7d' :: tail => 1 + phScan fuel tail
      | _ => phScan fuel rest
    else phScan fuel rest

/-- Embedding of `count_placeholders` (src/i18n_generator.py lines 28-40):
the number of `{identifier-or-empty}` placeholder tokens in `text`.  The
fuel argument of `phScan` only serves structural recursion; every step of the
scan consumes at least one character, so `text.length` steps always suffice. -/
def count_placeholders (text : String) : Nat :=
  phScan text.data.length text.data

/-- Embedding of `validate_placeholder_count` (src/i18n_generator.py lines
43-56): the translated text is accepted when its placeholder count equals the
source's. -/
def validate_placeholder_count (source_value translated_value : String) : Bool :=
  count_placeholders source_value == count_placeholders translated_value

/-- Embedding of the `language_names` mapping inside `translate_property_line`
(src/i18n_generator.py lines 115-128), with the `f'{target_language}语'`
default. -/
def languageName (target_language : String) : String :=
  match target_language with
  | "en" => "英文"
  | "fr" => "法文"
  | "de" => "德文"
  | "ja" => "日文"
  | "ko" => "韩文"
  | "es" => "西班牙文"
  | "it" => "意大利文"
  | "pt" => "葡萄牙文"
  | "ru" => "俄文"
  | "ar" => "阿拉伯文"
  | other => other ++ "语"

/-- Outcome of one translation-oracle HTTP call, as observed by
`translate_property_line`: no API key configured, a non-200 HTTP response, a
raised exception, or a 200 response with the returned message content. -/
inductive ApiOutcome where
  | noKey : ApiOutcome
  | httpError (status : Nat) (body : String) : ApiOutcome
  | exn (message : String) : ApiOutcome
  | ok (content : String) : ApiOutcome
deriving Repr, DecidableEq

/-- Predicate: the oracle call failed (any outcome other than a 200 response). -/
def ApiOutcome.isFailure : ApiOutcome → Bool
  | .ok _ => false
  | _ => true

/-- Characters of a string after the first occurrence of `c`, i.e. Python's
`s.split(c, 1)[1]` when `c` occurs in `s`. -/
def afterFirstChar (c : Char) (l : List Char) : List Char :=
  (l.dropWhile (fun x => !(x == c))).drop 1

/-- Removal of the first matching label in `prefixes_to_remove`
(src/i18n_generator.py lines 168-179): Python iterates the list, strips the
first matching label and breaks. -/
def removeTranslationLabel (labels : List String) (t : String) : String :=
  match labels.find? (fun p => strStartsWith t p) with
  | some p => pyStrip (strDrop t p.data.length)
  | none => t

/-- Embedding of `translate_property_line` (src/i18n_generator.py lines
91-199).  The HTTP call is replaced by its observed outcome `resp`; all
failure branches return `source_value` unchanged, and the success branch
mirrors the response clean-up: strip, label removal, removal of an echoed
`key=` part, and removal of surrounding quotes. -/
def translate_property_line (key source_value target_language : String)
    (resp : ApiOutcome) : String :=
  match resp with
  | .noKey => source_value
  | .httpError _ _ => source_value
  | .exn _ => source_value
  | .ok content =>
    let target_lang_name := languageName target_language
    let labels := [target_lang_name ++ "翻译值：", target_lang_name ++ "翻译：",
      "Translation:", "翻译值：", "翻译："]
    let t0 := pyStrip content
    let t1 := removeTranslationLabel labels t0
    let t2 :=
      if t1.data.contains '=' && strStartsWith t1 key then
        pyStrip ⟨afterFirstChar '=' t1.data⟩
      else t1
    if strStartsWith t2 "\"" && strEndsWith t2 "\"" then
      strDropRight (strDrop t2 1) 1
    else if strStartsWith t2 "\x27" && strEndsWith t2 "\x27" then
      strDropRight (strDrop t2 1) 1
    else t2

/-- Record appended to `placeholder_mismatch_items` on retry exhaustion
(src/i18n_generator.py lines 306-312). -/
structure MismatchItem where
  key : String
  source_value : String
  translated_value : String
  source_placeholders : Nat
  translated_placeholders : Nat
deriving Repr, DecidableEq

/-- Body of the bounded-retry translation loop of
`generate_language_properties` (src/i18n_generator.py lines 285-313).
`cand n` is the value `translate_property_line` returns on the `n`-th call
(0-based); `budget` is `max_retries - retry_count`, the number of loop
iterations still permitted; `calls` counts the oracle calls made so far.
Returns the final `target_value` (`none` only when the loop body never ran,
mirroring the initial Python `target_value = None`), the mismatch records
appended, and the total number of calls. -/
def transLoopAux (cand : Nat → String) (key source_value : String) :
    Nat → Nat → Option String × List MismatchItem × Nat
  | 0, calls => (none, [], calls)
  | budget + 1, calls =>
    let tv := cand calls
    if validate_placeholder_count source_value tv then
      (some tv, [], calls + 1)
    else if budget == 0 then
      (some tv,
       [⟨key, source_value, tv, count_placeholders source_value,
         count_placeholders tv⟩],
       calls + 1)
    else
      transLoopAux cand key source_value budget (calls + 1)

/-- Bounded-retry translation loop with `max_retries = 5`
(src/i18n_generator.py line 285). -/
def translateRetry (cand : Nat → String) (key source_value : String) :
    Option String × List MismatchItem × Nat :=
  transLoopAux cand key source_value 5 0

/-- Processing of one source entry by `generate_language_properties`
(src/i18n_generator.py lines 278-317): an entry whose key is already present
in the target catalogue keeps the existing translation with no oracle call;
otherwise the bounded-retry loop runs. -/
def processEntry (existing : List (String × String)) (cand : Nat → String)
    (key source_value : String) : Option String × List MismatchItem × Nat :=
  match existing.find? (fun p => p.1 == key) with
  | some p => (some p.2, [], 0)
  | none => translateRetry cand key source_value

/-- Embedding of the entry loop of `generate_language_properties`
(src/i18n_generator.py lines 278-317): fold over the ordered source entries,
appending each resulting `(key, target_value)` pair to the new target
catalogue and accumulating the placeholder-mismatch report.  `candF key
source n` is the candidate returned by the `n`-th `translate_property_line`
call for that entry. -/
def generate_language_properties (candF : String → String → Nat → String)
    (source_properties existing_target : List (String × String)) :
    List (String × Option String) × List MismatchItem :=
  source_properties.foldl
    (fun acc kv =>
      let r := processEntry existing_target (candF kv.1 kv.2) kv.1 kv.2
      (acc.1 ++ [(kv.1, r.1)], acc.2 ++ r.2.1))
    ([], [])

/-! Embedding of the literal filter of `JavaStringExtractor`
(src/i18n_extractor.py). -/

/-- ASCII lower-case letter. -/
def isAsciiLower (c : Char) : Bool := 'a' ≤ c && c ≤ 'z'

/-- ASCII upper-case letter. -/
def isAsciiUpper (c : Char) : Bool := 'A' ≤ c && c ≤ 'Z'

/-- ASCII letter. -/
def isAsciiAlpha (c : Char) : Bool := isAsciiLower c || isAsciiUpper c

/-- ASCII digit. -/
def isAsciiDigit (c : Char) : Bool := '0' ≤ c && c ≤ '9'

/-- ASCII lower-casing of one character, as `re.IGNORECASE` and `str.lower()`
act on the ASCII patterns involved. -/
def asciiLower (c : Char) : Char :=
  if isAsciiUpper c then Char.ofNat (c.toNat + 32) else c

/-- Does predicate `p` hold of some suffix of the list?  Drives the searching
(`re.search`-style, try every start position) regex embeddings. -/
def existsPos (p : List Char → Bool) : List Char → Bool
  | [] => p []
  | c :: rest => p (c :: rest) || existsPos p rest

/-- Substring test (Python `needle in hay` / an unanchored literal regex). -/
def containsSub (hay needle : List Char) : Bool :=
  existsPos (fun t => listStartsWith t needle) hay

/-- Matcher for the regexes `\.name\s*\(` of the log-method pattern list
(src/i18n_extractor.py lines 97-101), anchored at the current position. -/
def dotCallAt (name : List Char) (l : List Char) : Bool :=
  listStartsWith l ('.' :: name) &&
    (match (l.drop (name.length + 1)).dropWhile isPySpace with
     | '(' :: _ => true
     | _ => false)

/-- Searching version of `dotCallAt`. -/
def containsDotCall (l name : List Char) : Bool :=
  existsPos (dotCallAt name) l

/-- Embedding of `contains_non_english` (src/i18n_extractor.py lines 70-74).
The regex is `[^\x00-\x7F]|[ -⁯⸀-⹿　-〿＀-￯]`;
every character of the second alternative already lies outside `\x00-\x7F`,
so the test is: some character has a code point above `0x7F`. -/
def contains_non_english (string_value : String) : Bool :=
  string_value.data.any (fun c => c.toNat > 0x7F)

/-- Matcher for exclude pattern `^\s*$` (blank) of `exclude_patterns`
(src/i18n_extractor.py line 50), under `re.match` against the whole
(stripped) candidate. -/
def reBlank (l : List Char) : Bool :=
  l.all isPySpace

/-- Matcher for exclude pattern `^[a-zA-Z_][a-zA-Z0-9_.]*$` (identifier,
src/i18n_extractor.py line 51). -/
def reIdentifier : List Char → Bool
  | [] => false
  | c :: rest =>
    (isAsciiAlpha c || c == '_') &&
      rest.all (fun x => isAsciiAlpha x || isAsciiDigit x || x == '_' || x == '.')

/-- Matcher for exclude pattern `^\d+$` (pure number,
src/i18n_extractor.py line 52). -/
def reNumber (l : List Char) : Bool :=
  !l.isEmpty && l.all isAsciiDigit

/-- Matcher for exclude pattern `^[\w.]+\.[a-zA-Z]+$` (file or package name,
src/i18n_extractor.py line 53).  A match splits the string at its last dot:
the ASCII-alphabetic run at the end must be nonempty and be preceded by a
dot, and the nonempty part before that dot must consist of word characters
and dots.  (The split dot must be the last one because the final group
`[a-zA-Z]+` admits no dot, and taking the maximal alphabetic run is complete
because any shorter run is preceded by a letter, not a dot.) -/
def reDottedName (l : List Char) : Bool :=
  let rev := l.reverse
  let suf := rev.takeWhile isAsciiAlpha
  match rev.drop suf.length with
  | '.' :: before =>
    !suf.isEmpty && !before.isEmpty && before.all (fun c => isWordChar c || c == '.')
  | _ => false

/-- Matcher for exclude pattern `^[A-Z_]+$` (constant name,
src/i18n_extractor.py line 54). -/
def reConstant (l : List Char) : Bool :=
  !l.isEmpty && l.all (fun c => isAsciiUpper c || c == '_')

/-- Characters of the symbol class `[{}\[\](),;]`
(src/i18n_extractor.py line 55). -/
def symChars : List Char := ['\x7b', '\x7d', '[', ']', '(', ')', ',', ';']

/-- Matcher for exclude pattern `^\s*[{}\[\](),;]+\s*$` (pure symbols,
src/i18n_extractor.py line 55): leading and trailing whitespace around a
nonempty contiguous run of symbol characters. -/
def reSymbols (l : List Char) : Bool :=
  let core := ((l.dropWhile isPySpace).reverse.dropWhile isPySpace).reverse
  !core.isEmpty && core.all (fun c => symChars.contains c)

/-- Matcher for exclude pattern `^(true|false|null)$` (Java keywords,
src/i18n_extractor.py line 56). -/
def reKeyword (l : List Char) : Bool :=
  l == "true".data || l == "false".data || l == "null".data

/-- Characters of the operator class `[+\-*/=<>!&|]`
(src/i18n_extractor.py line 57). -/
def opChars : List Char := ['+', '-', '*', '/', '=', '<', '>', '!', '&', '|']

/-- Matcher for exclude pattern `^\s*[+\-*/=<>!&|]+\s*$` (pure operators,
src/i18n_extractor.py line 57). -/
def reOperators (l : List Char) : Bool :=
  let core := ((l.dropWhile isPySpace).reverse.dropWhile isPySpace).reverse
  !core.isEmpty && core.all (fun c => opChars.contains c)

/-- Disjunction over `exclude_patterns` (src/i18n_extractor.py lines 49-58),
applied by `is_valid_string` to the stripped candidate. -/
def excludePatternsMatch (l : List Char) : Bool :=
  reBlank l || reIdentifier l || reNumber l || reDottedName l || reConstant l
    || reSymbols l || reKeyword l || reOperators l

/-- Embedding of `log_keywords` (src/i18n_extractor.py line 82): the list is
empty in the source. -/
def log_keywords : List String := []

/-- Disjunction over `log_method_patterns` (src/i18n_extractor.py lines
91-106), searched in the context with `re.IGNORECASE` (modelled by ASCII
lower-casing both sides; the patterns are ASCII). The first four entries of
the Python list collapse pairwise under case folding. -/
def logMethodPatternsMatch (ctx : List Char) : Bool :=
  let c := ctx.map asciiLower
  containsSub c "log.".data
    || containsSub c "log.".data
    || containsSub c "logger.".data
    || containsSub c "logger.".data
    || containsSub c "loggerfactory.".data
    || containsDotCall c "info".data
    || containsDotCall c "debug".data
    || containsDotCall c "warn".data
    || containsDotCall c "error".data
    || containsDotCall c "trace".data
    || containsSub c ".logprocessorlog(".data
    || containsSub c "system.out.print".data
    || containsSub c "system.err.print".data
    || containsSub c "printstacktrace".data

/-- Embedding of `is_log_string` (src/i18n_extractor.py lines 76-112).
`ignore_log_strings` is the instance attribute set to `True` in the
constructor. -/
def is_log_string (ignore_log_strings : Bool) (string_value context : String) : Bool :=
  if !ignore_log_strings then false
  else if log_keywords.any (fun kw => containsSub string_value.data kw.data) then true
  else if !context.data.isEmpty then logMethodPatternsMatch context.data
  else false

/-- Embedding of `is_valid_string` (src/i18n_extractor.py lines 114-132): a
candidate is kept only if it is nonempty with a stripped length of at least
2, matches no exclude pattern (each applied to the stripped value), contains
a non-English character, and is not a log string. -/
def is_valid_string (ignore_log_strings : Bool) (string_value context : String) : Bool :=
  if string_value.data.isEmpty || (pyStripList string_value.data).length < 2 then false
  else if excludePatternsMatch (pyStripList string_value.data) then false
  else if !contains_non_english string_value then false
  else if is_log_string ignore_log_strings string_value context then false
  else true

/-! Embedding of the Key Assigner: `_generate_ai_key`, `generate_key` and the
key-assignment part of `main` (src/i18n_extractor.py). -/

/-- Length of a match of the regex `<think>[.\s]*?</think>`
(src/i18n_extractor.py line 547) starting at the head of `l`, if any: the
literal `<think>`, a shortest run of dots/whitespace, and `</think>`. -/
def thinkBodyLen : Nat → List Char → Nat → Option Nat
  | 0, _, _ => none
  | fuel + 1, l, acc =>
    if listStartsWith l "</think>".data then some (acc + 8)
    else
      match l with
      | c :: rest =>
        if c == '.' || isPySpace c then thinkBodyLen fuel rest (acc + 1) else none
      | [] => none

/-- Match attempt for `<think>[.\s]*?</think>` at the current position. -/
def thinkMatchLen (l : List Char) : Option Nat :=
  if listStartsWith l "<think>".data then
    thinkBodyLen (l.length + 1) (l.drop 7) 7
  else none

/-- Scanner for `re.sub(r'<think>[.\s]*?</think>', '', ai_key)`
(src/i18n_extractor.py line 547): delete every match, resuming after each
deletion. -/
def removeThinkTags : Nat → List Char → List Char
  | 0, l => l
  | _ + 1, [] => []
  | fuel + 1, c :: rest =>
    match thinkMatchLen (c :: rest) with
    | some n => removeThinkTags fuel ((c :: rest).drop n)
    | none => c :: removeThinkTags fuel rest

/-- Replacement pass of `re.sub(r'[^a-zA-Z0-9_]', '_', ai_key)`
(src/i18n_extractor.py line 552). -/
def cleanNonAlnumUnderscore (l : List Char) : List Char :=
  l.map (fun c => if isAsciiAlpha c || isAsciiDigit c || c == '_' then c else '_')

/-- Replacement pass of `re.sub(r'_+', '_', s)` (src/i18n_extractor.py lines
553 and 633): collapse each run of underscores to a single underscore.  The
boolean records whether the previous character was an underscore. -/
def collapseUnderscoreRuns : Bool → List Char → List Char
  | _, [] => []
  | prev, c :: rest =>
    if c == '_' then
      if prev then collapseUnderscoreRuns true rest
      else '_' :: collapseUnderscoreRuns true rest
    else c :: collapseUnderscoreRuns false rest

/-- Python `str.lower()` on the ASCII range (the strings it is applied to
here contain only `[a-zA-Z0-9_]` and CJK characters, which `lower` leaves
unchanged). -/
def strLower (s : String) : String :=
  ⟨s.data.map asciiLower⟩

/-- Embedding of `_generate_ai_key` (src/i18n_extractor.py lines 481-566).
The HTTP call is modelled by `resp`: `none` for an exception, a timeout or a
non-200 response, `some content` for a 200 response with that message
content.  Returns Python's `(ai_key, original_key)` pair: the normalized
candidate (or `none` when normalization yields the empty string or the call
failed) and the raw response recorded into the negative list.  The negative
list itself only alters the prompt sent to the oracle, which `resp` already
accounts for. -/
def ai_key_of_response (resp : Option String) : Option String × Option String :=
  match resp with
  | none => (none, none)
  | some content =>
    let k0 := pyStrip content
    let k1 :=
      if containsSub k0.data "<think>".data then
        pyStrip ⟨removeThinkTags k0.data.length k0.data⟩
      else k0
    let original_key := k1
    let cleaned :=
      strLower (stripUnderscores ⟨collapseUnderscoreRuns false (cleanNonAlnumUnderscore k1.data)⟩)
    if !cleaned.data.isEmpty then (some cleaned, some original_key)
    else (none, some original_key)

/-- Embedding of the `while True` oracle loop of `generate_key`
(src/i18n_extractor.py lines 590-617).  `resp n` is the oracle response on
attempt `n`; `fuel` bounds how many iterations we unfold.  Returns `some
full_key` when an iteration returns, and `none` when the loop is still
running after `fuel` iterations — the Python loop has no other exit: the exit
after repeated failures is commented out in the source. -/
def aiKeyLoopAux (resp : Nat → Option String) (modPfx : String)
    (existing_keys : List String) : Nat → Nat → Option String
  | 0, _ => none
  | fuel + 1, attempt =>
    match ai_key_of_response (resp attempt) with
    | (some ai_key, _) =>
      let full_key := modPfx ++ ai_key
      if existing_keys.contains full_key then
        aiKeyLoopAux resp modPfx existing_keys fuel (attempt + 1)
      else some full_key
    | (none, _) => aiKeyLoopAux resp modPfx existing_keys fuel (attempt + 1)

/-- Cleaning step of the deterministic fallback (src/i18n_extractor.py lines
631-633): `re.sub(r'[^a-zA-Z0-9一-鿿]', '_', v)`, collapse underscore
runs, strip underscores. -/
def fallbackCleaned (v : String) : String :=
  stripUnderscores
    ⟨collapseUnderscoreRuns false
      (v.data.map (fun c =>
        if isAsciiAlpha c || isAsciiDigit c
            || (0x4e00 ≤ c.toNat && c.toNat ≤ 0x9fff) then c
        else '_'))⟩

/-- Base-key step of the deterministic fallback (src/i18n_extractor.py lines
635-643).  `hashHex v` models `hashlib.md5(v.encode('utf-8')).hexdigest()`,
an opaque library call. -/
def fallbackBase (hashHex : String → String) (v cleaned : String) : String :=
  if cleaned.data.length < 2 then
    "str_" ++ ⟨(hashHex v).data.take 8⟩
  else if cleaned.data.length > 50 then
    strLower (⟨cleaned.data.take 47⟩ ++ "_" ++ ⟨(hashHex v).data.take 3⟩)
  else strLower cleaned

/-- Embedding of the numeric-suffix loop of `generate_key`
(src/i18n_extractor.py lines 651-654): find the first `counter ≥ 1` with
`full_key_counter` unused.  In Python the loop always terminates because the
key set is finite and decimal renderings of distinct counters are distinct;
the fuel `existing_keys.length + 1` passed by `generate_key` reflects that at
most `length + 1` candidates can be tried before one misses the list. -/
def counterLoopAux (existing_keys : List String) (full_key : String) :
    Nat → Nat → Option String
  | 0, _ => none
  | fuel + 1, counter =>
    if existing_keys.contains (full_key ++ "_" ++ Nat.repr counter) then
      counterLoopAux existing_keys full_key fuel (counter + 1)
    else some (full_key ++ "_" ++ Nat.repr counter)

/-- Result of one `generate_key` call: a returned key, the operator declining
the fallback (Python `exit(0)`), or a loop that has not returned within the
given bound (the oracle loop can actually run forever; the numeric-suffix
loop cannot, given sufficient fuel). -/
inductive KeyOutcome where
  | key (k : String)
  | exited
  | stillLooping
deriving Repr, DecidableEq

/-- Embedding of `generate_key` (src/i18n_extractor.py lines 568-654).
`useAi` is `self.use_ai_key_generation`; `resp` the oracle; `aiFuel` the
number of oracle-loop iterations unfolded; `operatorFallback` the operator's
answer to the `input()` prompt (reached only when `useAi` is false, exactly
as in the source, where no path leaves the oracle loop except `return`);
`hashHex` models `hashlib.md5(...).hexdigest()`; `modPfx` the module prefix
that `find_module_path` derives from the file path (a file-system walk,
passed in here as a value).  The first step returns the key of the first
catalogue entry whose value equals the stripped `string_value`. -/
def generate_key (useAi : Bool) (resp : Nat → Option String) (aiFuel : Nat)
    (operatorFallback : Bool) (hashHex : String → String) (modPfx : String)
    (string_value : String) (existing_keys : List String)
    (existing_config : List (String × String)) : KeyOutcome :=
  let v := pyStrip string_value
  match existing_config.find? (fun p => p.2 == v) with
  | some p => .key p.1
  | none =>
    if useAi then
      match aiKeyLoopAux resp modPfx existing_keys aiFuel 0 with
      | some k => .key k
      | none => .stillLooping
    else if !operatorFallback then .exited
    else
      let cleaned := fallbackCleaned v
      let base_key := fallbackBase hashHex v cleaned
      let full_key := modPfx ++ base_key
      if !existing_keys.contains full_key then .key full_key
      else
        match counterLoopAux existing_keys full_key (existing_keys.length + 1) 1 with
        | some k => .key k
        | none => .stillLooping

/-- Environment of one extraction run: the pieces of `JavaStringExtractor`
state and of the outside world that `generate_key` consumes.  `respF v n` is
the oracle response for value `v` on attempt `n`. -/
structure RunEnv where
  useAi : Bool
  respF : String → Nat → Option String
  aiFuel : Nat
  operatorFallback : Bool
  hashHex : String → String

/-- Mutable state of the key-assignment loop of `main`
(src/i18n_extractor.py lines 781-809): the ordered catalogue
`existing_config`, the key set `existing_keys`, and whether the run has
stopped (operator exit or a loop that never returned). -/
structure RunState where
  config : List (String × String)
  keys : List String
  halted : Bool

/-- Dictionary lookup `existing_config[key]` on the ordered catalogue. -/
def lookupKey (cfg : List (String × String)) (k : String) : Option String :=
  (cfg.find? (fun p => p.1 == k)).map (fun p => p.2)

/-- One iteration of the key-assignment loop of `main`
(src/i18n_extractor.py lines 791-809) on the item `(string_value, module
prefix)`: call `generate_key`; skip when it returned an existing key bound to
this very value; otherwise add the pair when (and only when) the key is not
yet in the catalogue, keeping `existing_keys` in step. -/
def mainStep (env : RunEnv) (st : RunState) (item : String × String) : RunState :=
  if st.halted then st
  else
    match generate_key env.useAi (env.respF item.1) env.aiFuel
        env.operatorFallback env.hashHex item.2 item.1 st.keys st.config with
    | .key k =>
      if lookupKey st.config k == some item.1 then st
      else if (lookupKey st.config k).isNone then
        { st with config := st.config ++ [(k, item.1)], keys := st.keys ++ [k] }
      else st
    | _ => { st with halted := true }

/-- The key-assignment loop of `main` over the ordered unique extracted
values (`scan_project` returns an ordered value-to-path map, so the run
visits each distinct value once). -/
def runExtraction (env : RunEnv) (items : List (String × String))
    (st0 : RunState) : RunState :=
  items.foldl (mainStep env) st0

/-! Embedding of the Literal Scanner and Concatenation Reconstructor:
`remove_comments`, `detect_string_concatenation`,
`_detect_multiline_concatenation`, `_merge_concatenation_parts`, the
StringBuilder/format passes and `extract_strings_from_file`
(src/i18n_extractor.py lines 60-68 and 151-428). -/

/-- Generic `re.sub(pattern, '', text)` scanner: `ml l` gives the length of a
match starting at the head of `l`, if any; matches are deleted and scanning
resumes after each deletion.  All matchers passed in match at least one
character. -/
def subDelete (ml : List Char → Option Nat) : Nat → List Char → List Char
  | 0, l => l
  | _ + 1, [] => []
  | fuel + 1, c :: rest =>
    match ml (c :: rest) with
    | some n => if n == 0 then c :: subDelete ml fuel rest
                else subDelete ml fuel ((c :: rest).drop n)
    | none => c :: subDelete ml fuel rest

/-- Body search for `/\*.*?\*/` (non-greedy, DOTALL): distance to the nearest
closing `*/`. -/
def mcBody : Nat → List Char → Nat → Option Nat
  | 0, _, _ => none
  | fuel + 1, l, acc =>
    if listStartsWith l "*/".data then some (acc + 2)
    else
      match l with
      | _ :: rest => mcBody fuel rest (acc + 1)
      | [] => none

/-- Match length for the block-comment regex `/\*.*?\*/`
(src/i18n_extractor.py line 36) at the current position. -/
def multiCommentLen (l : List Char) : Option Nat :=
  if listStartsWith l "/*".data then mcBody (l.length + 1) (l.drop 2) 2
  else none

/-- Match length for the line-comment regex `//.*$` in MULTILINE mode
(src/i18n_extractor.py line 34) at the current position: from `//` to the
end of the physical line, the newline excluded. -/
def lineCommentLen (l : List Char) : Option Nat :=
  if listStartsWith l "//".data then
    some (2 + ((l.drop 2).takeWhile (fun c => !(c == '\n'))).length)
  else none

/-- Match length for the annotation regex `@\w+\s*\([^)]*\)`
(src/i18n_extractor.py line 38) at the current position. -/
def annotationLen (l : List Char) : Option Nat :=
  match l with
  | '@' :: rest =>
    let run := (rest.takeWhile isWordChar).length
    if run == 0 then none
    else
      let l2 := rest.drop run
      let sp := (l2.takeWhile isPySpace).length
      match l2.drop sp with
      | '(' :: l3 =>
        let inner := l3.takeWhile (fun c => !(c == ')'))
        match l3.drop inner.length with
        | ')' :: _ => some (1 + run + sp + 1 + inner.length + 1)
        | _ => none
      | _ => none
  | _ => none

/-- Embedding of `remove_comments` (src/i18n_extractor.py lines 60-68):
delete block comments, then line comments, then annotations. -/
def remove_comments (content : List Char) : List Char :=
  let c1 := subDelete multiCommentLen (content.length + 1) content
  let c2 := subDelete lineCommentLen (c1.length + 1) c1
  subDelete annotationLen (c2.length + 1) c2

/-- Python `content.split('\n')`. -/
def splitOnNl : List Char → List (List Char)
  | [] => [[]]
  | c :: rest =>
    if c == '\n' then [] :: splitOnNl rest
    else
      match splitOnNl rest with
      | line :: more => (c :: line) :: more
      | [] => [[c]]

/-- Python `'\n'.join(lines)`. -/
def joinNl (ls : List (List Char)) : List Char :=
  List.intercalate ['\n'] ls

/-- Python `old in s` then `s.replace(old, '')`: delete every non-overlapping
occurrence of `needle`, left to right (used for the raw-span removal in
`extract_strings_from_file`, src/i18n_extractor.py line 407). -/
def replaceAllEmpty : Nat → List Char → List Char → List Char
  | 0, hay, _ => hay
  | _ + 1, [], _ => []
  | fuel + 1, c :: rest, needle =>
    if needle.isEmpty then c :: rest
    else if listStartsWith (c :: rest) needle then
      replaceAllEmpty fuel ((c :: rest).drop needle.length) needle
    else c :: replaceAllEmpty fuel rest needle

/-- Body of the Java string-literal regex `"([^"\\]*(\\.[^"\\]*)*)"`
(src/i18n_extractor.py line 32) after the opening quote: accumulate the
captured content (escape pairs kept verbatim; `\\.` does not match a
newline, while the plain class `[^"\\]` does) and return it with the total
match length. -/
def strLitBody : Nat → List Char → List Char → Nat → Option (List Char × Nat)
  | 0, _, _, _ => none
  | _ + 1, [], _, _ => none
  | fuel + 1, c :: rest, acc, len =>
    if c == '"' then some (acc.reverse, len + 1)
    else if c == '\\' then
      match rest with
      | d :: rest2 =>
        if d == '\n' then none
        else strLitBody fuel rest2 (d :: '\\' :: acc) (len + 2)
      | [] => none
    else strLitBody fuel rest (c :: acc) (len + 1)

/-- Match attempt for the string-literal regex at the current position:
captured group and total length. -/
def strLitAt (l : List Char) : Option (List Char × Nat) :=
  match l with
  | '"' :: rest => strLitBody (rest.length + 1) rest [] 1
  | _ => none

/-- Python `re.search(r'"([^"\\]*(?:\\.[^"\\]*)*)"', line)`: captured group
of the first string literal in the line (src/i18n_extractor.py lines 238 and
261). -/
def strLitSearch : Nat → List Char → Option (List Char)
  | 0, _ => none
  | _ + 1, [] => none
  | fuel + 1, l@(_ :: rest) =>
    match strLitAt l with
    | some (g, _) => some g
    | none => strLitSearch fuel rest

/-- Python `re.findall` of the string-literal regex over one line, yielding
the captured contents in order (src/i18n_extractor.py line 415). -/
def findStringLits : Nat → List Char → List (List Char)
  | 0, _ => []
  | _ + 1, [] => []
  | fuel + 1, l@(_ :: rest) =>
    match strLitAt l with
    | some (g, n) => g :: findStringLits fuel (l.drop n)
    | none => findStringLits fuel rest

/-- Match length of `[a-zA-Z_][a-zA-Z0-9_.]*(?:\([^)]*\))?` — an identifier
or call operand in the concatenation patterns (src/i18n_extractor.py lines
161-170, 224, 254) — at the current position.  The identifier run is greedy
and safe (its class excludes everything the following pattern parts accept),
and the optional call group is taken exactly when an immediately following
parenthesis closes. -/
def identCallLen (l : List Char) : Option Nat :=
  match l with
  | c :: _ =>
    if isAsciiAlpha c || c == '_' then
      let run :=
        (l.takeWhile (fun x =>
          isAsciiAlpha x || isAsciiDigit x || x == '_' || x == '.')).length
      match l.drop run with
      | '(' :: rest2 =>
        let inner := rest2.takeWhile (fun x => !(x == ')'))
        match rest2.drop inner.length with
        | ')' :: _ => some (run + inner.length + 2)
        | _ => some run
      | _ => some run
    else none
  | [] => none

/-- Match attempt at the current position for single-line pattern 1,
`"lit" + var + "lit"` (src/i18n_extractor.py line 161), returning the match
length and the formatter result `g1 ++ "{}" ++ g3` (line 162). -/
def p1At (l : List Char) : Option (Nat × List Char) :=
  match strLitAt l with
  | some (g1, n1) =>
    let l2 := l.drop n1
    let s1 := (l2.takeWhile isPySpace).length
    match l2.drop s1 with
    | '+' :: l3 =>
      let s2 := (l3.takeWhile isPySpace).length
      match identCallLen (l3.drop s2) with
      | some nid =>
        let l4 := (l3.drop s2).drop nid
        let s3 := (l4.takeWhile isPySpace).length
        match l4.drop s3 with
        | '+' :: l5 =>
          let s4 := (l5.takeWhile isPySpace).length
          match strLitAt (l5.drop s4) with
          | some (g3, n3) =>
            some (n1 + s1 + 1 + s2 + nid + s3 + 1 + s4 + n3,
              g1 ++ "\x7b\x7d".data ++ g3)
          | none => none
        | _ => none
      | none => none
    | _ => none
  | none => none

/-- Match attempt for single-line pattern 2, `"lit" + var`
(src/i18n_extractor.py line 165), formatted as `g1 ++ "{}"` (line 166). -/
def p2At (l : List Char) : Option (Nat × List Char) :=
  match strLitAt l with
  | some (g1, n1) =>
    let l2 := l.drop n1
    let s1 := (l2.takeWhile isPySpace).length
    match l2.drop s1 with
    | '+' :: l3 =>
      let s2 := (l3.takeWhile isPySpace).length
      match identCallLen (l3.drop s2) with
      | some nid => some (n1 + s1 + 1 + s2 + nid, g1 ++ "\x7b\x7d".data)
      | none => none
    | _ => none
  | none => none

/-- Match attempt for single-line pattern 3, `var + "lit"`
(src/i18n_extractor.py line 169), formatted as `"{}" ++ g2` (line 170). -/
def p3At (l : List Char) : Option (Nat × List Char) :=
  match identCallLen l with
  | some nid =>
    let l2 := l.drop nid
    let s1 := (l2.takeWhile isPySpace).length
    match l2.drop s1 with
    | '+' :: l3 =>
      let s2 := (l3.takeWhile isPySpace).length
      match strLitAt (l3.drop s2) with
      | some (g2, n2) => some (nid + s1 + 1 + s2 + n2, "\x7b\x7d".data ++ g2)
      | none => none
    | _ => none
  | none => none

/-- Python `re.finditer`: scan every position, and after a match resume past
it; yields `(group0, value)` pairs in match order. -/
def scanMatches (pm : List Char → Option (Nat × List Char)) :
    Nat → List Char → List (List Char × List Char)
  | 0, _ => []
  | _ + 1, [] => []
  | fuel + 1, l@(_ :: rest) =>
    match pm l with
    | some (n, v) =>
      if n == 0 then scanMatches pm fuel rest
      else (l.take n, v) :: scanMatches pm fuel (l.drop n)
    | none => scanMatches pm fuel rest

/-- Python dict assignment `detected_strings[key] = value` on the
insertion-ordered mapping. -/
def odInsert (m : List (String × String)) (k v : String) : List (String × String) :=
  if (m.find? (fun p => p.1 == k)).isSome then
    m.map (fun p => if p.1 == k then (k, v) else p)
  else m ++ [(k, v)]

/-- Shared body of `_merge_concatenation_parts` and `_merge_append_strings`
(src/i18n_extractor.py lines 288-308 and 352-373, two identical functions):
keep `{}` parts, concatenate runs of adjacent literal parts.  The
accumulator holds the literal run being collected. -/
def mergeAux : List (List Char) → Option (List Char) → List (List Char)
  | [], none => []
  | [], some lit => [lit]
  | p :: rest, none =>
    if p == "\x7b\x7d".data then p :: mergeAux rest none
    else mergeAux rest (some p)
  | p :: rest, some lit =>
    if p == "\x7b\x7d".data then lit :: p :: mergeAux rest none
    else mergeAux rest (some (lit ++ p))

/-- Embedding of `_merge_concatenation_parts` (src/i18n_extractor.py lines
288-308); the final `''.join` flattens the merged segments. -/
def _merge_concatenation_parts (parts : List (List Char)) : List Char :=
  if parts.isEmpty then [] else (mergeAux parts none).flatten

/-- Embedding of `_merge_append_strings` (src/i18n_extractor.py lines
352-373), textually identical to `_merge_concatenation_parts` in the
source. -/
def _merge_append_strings (parts : List (List Char)) : List Char :=
  if parts.isEmpty then [] else (mergeAux parts none).flatten

/-- Python `line.endswith('+')`. -/
def endsWithPlus (l : List Char) : Bool :=
  match l.reverse with
  | '+' :: _ => true
  | _ => false

/-- Matcher for `re.match(r'([a-zA-Z_][a-zA-Z0-9_.]*(?:\([^)]*\))?)\s*\+\s*$',
next_line)` (src/i18n_extractor.py line 254): a lone variable operand
followed by the concatenation operator at the end of the line. -/
def varMatchLine (l : List Char) : Bool :=
  match identCallLen l with
  | some n =>
    match (l.drop n).dropWhile isPySpace with
    | '+' :: r2 => ((r2.dropWhile isPySpace).isEmpty : Bool)
    | _ => false
  | none => false

/-- Inner line loop of `_detect_multiline_concatenation`
(src/i18n_extractor.py lines 244-272).  Given the lines after the opening
line, the parts and stripped original lines collected so far, it returns the
final parts, the final original lines, and the lines from the break position
onward (the outer loop resumes there: Python sets `i = j`).  Blank lines are
skipped without being recorded; every other visited line is appended to the
original lines before being classified — including the line that causes the
break. -/
def mlInner : List (List Char) → List (List Char) → List (List Char) →
    List (List Char) × List (List Char) × List (List Char)
  | [], parts, olines => (parts, olines, [])
  | lraw :: rest, parts, olines =>
    let nl := pyStripList lraw
    if nl.isEmpty then mlInner rest parts olines
    else
      let olines' := olines ++ [nl]
      if varMatchLine nl then mlInner rest (parts ++ ["\x7b\x7d".data]) olines'
      else
        match strLitSearch (nl.length + 1) nl with
        | some g =>
          if !endsWithPlus nl then (parts ++ [g], olines', lraw :: rest)
          else mlInner rest (parts ++ [g]) olines'
        | none => (parts, olines', lraw :: rest)

/-- Outer loop of `_detect_multiline_concatenation` (src/i18n_extractor.py
lines 218-286): find a (stripped) line containing a quote and ending in `+`,
collect the chain with `mlInner`, and record the merged value under the
newline-join of the stripped original lines when more than one part was
collected and the merged value passes the content predicate. -/
def mlOuter : Nat → List (List Char) → List (String × String) →
    List (String × String)
  | 0, _, acc => acc
  | _ + 1, [], acc => acc
  | fuel + 1, lraw :: rest, acc =>
    let line := pyStripList lraw
    if line.contains '"' && endsWithPlus line then
      match strLitSearch (line.length + 1) line with
      | some g1 =>
        match mlInner rest [g1] [line] with
        | (parts, olines, remaining) =>
          let acc' :=
            if parts.length > 1 then
              let merged := _merge_concatenation_parts parts
              if !merged.isEmpty && contains_non_english ⟨merged⟩ then
                odInsert acc ⟨joinNl olines⟩ ⟨merged⟩
              else acc
            else acc
          mlOuter fuel remaining acc'
      | none => mlOuter fuel rest acc
    else mlOuter fuel rest acc

/-- Embedding of `_detect_multiline_concatenation` (src/i18n_extractor.py
lines 218-286), accumulating into `acc`. -/
def _detect_multiline_concatenation (content : List Char)
    (acc : List (String × String)) : List (String × String) :=
  mlOuter ((splitOnNl content).length + 1) (splitOnNl content) acc

/-- Per-line single-pattern pass of `detect_string_concatenation`
(src/i18n_extractor.py lines 173-194): lines without both a quote and a plus
are skipped, and each pattern's matches are recorded (keyed by the matched
span) when the formatted value passes the content predicate. -/
def singleLinePass (lines : List (List Char)) (acc : List (String × String)) :
    List (String × String) :=
  lines.foldl
    (fun acc line =>
      if line.contains '"' && line.contains '+' then
        if (pyStripList line).isEmpty then acc
        else
          [p1At, p2At, p3At].foldl
            (fun a pm =>
              (scanMatches pm (line.length + 1) line).foldl
                (fun a2 kv =>
                  if contains_non_english ⟨kv.2⟩ then odInsert a2 ⟨kv.1⟩ ⟨kv.2⟩
                  else a2)
                a)
            acc
      else acc)
    acc

/-- Match attempt for `\.append\s*\(([^)]+)\)` (src/i18n_extractor.py lines
315-317 and 336) at the current position: match length and the captured
argument. -/
def appendCallLen (l : List Char) : Option (Nat × List Char) :=
  if listStartsWith l ".append".data then
    let after := l.drop 7
    let sp := (after.takeWhile isPySpace).length
    match after.drop sp with
    | '(' :: rest =>
      let inner := rest.takeWhile (fun x => !(x == ')'))
      if inner.isEmpty then none
      else
        match rest.drop inner.length with
        | ')' :: _ => some (7 + sp + 1 + inner.length + 1, inner)
        | _ => none
    | _ => none
  else none

/-- Greedy `(?:\.append\s*\([^)]+\))+` chain at the current position: total
length and number of append groups consumed. -/
def appendChainLen : Nat → List Char → Nat × Nat
  | 0, _ => (0, 0)
  | fuel + 1, l =>
    match appendCallLen l with
    | some (n, _) =>
      match appendChainLen fuel (l.drop n) with
      | (m, c) => (n + m, c + 1)
    | none => (0, 0)

/-- Match length for the first builder regex
`new\s+(?:StringBuilder|StringBuffer)\s*\(\s*\)(?:\.append\s*\([^)]+\))+`
(src/i18n_extractor.py line 315) at the current position. -/
def builderNewAt (l : List Char) : Option Nat :=
  if listStartsWith l "new".data then
    let after := l.drop 3
    let sp := (after.takeWhile isPySpace).length
    if sp == 0 then none
    else
      let l2 := after.drop sp
      let kw :=
        if listStartsWith l2 "StringBuilder".data then some 13
        else if listStartsWith l2 "StringBuffer".data then some 12
        else none
      match kw with
      | none => none
      | some n =>
        let l3 := l2.drop n
        let sp2 := (l3.takeWhile isPySpace).length
        match l3.drop sp2 with
        | '(' :: l4 =>
          let sp3 := (l4.takeWhile isPySpace).length
          match l4.drop sp3 with
          | ')' :: l5 =>
            match appendChainLen (l5.length + 1) l5 with
            | (m, c) =>
              if c == 0 then none
              else some (3 + sp + n + sp2 + 1 + sp3 + 1 + m)
          | _ => none
        | _ => none
  else none

/-- Match length for the second builder regex
`[a-zA-Z_][a-zA-Z0-9_]*\.append\s*\([^)]+\)(?:\.append\s*\([^)]+\))+`
(src/i18n_extractor.py line 317): an identifier (no dots) followed by at
least two append calls. -/
def builderVarAt (l : List Char) : Option Nat :=
  match l with
  | c :: _ =>
    if isAsciiAlpha c || c == '_' then
      let run :=
        (l.takeWhile (fun x => isAsciiAlpha x || isAsciiDigit x || x == '_')).length
      let l2 := l.drop run
      match appendCallLen l2 with
      | some (n1, _) =>
        match appendChainLen ((l2.drop n1).length + 1) (l2.drop n1) with
        | (m, cnt) => if cnt == 0 then none else some (run + n1 + m)
      | none => none
    else none
  | [] => none

/-- Embedding of `_extract_append_strings` (src/i18n_extractor.py lines
332-350): scan the builder span for append calls; a stripped argument
wrapped in double quotes contributes its content, anything else contributes
a `{}` placeholder. -/
def _extract_append_strings : Nat → List Char → List (List Char)
  | 0, _ => []
  | _ + 1, [] => []
  | fuel + 1, l@(_ :: rest) =>
    match appendCallLen l with
    | some (n, param) =>
      let p := pyStripList param
      let part :=
        if listStartsWith p ['"'] && listStartsWith p.reverse ['"'] then
          (p.drop 1).dropLast
        else "\x7b\x7d".data
      part :: _extract_append_strings fuel (l.drop n)
    | none => _extract_append_strings fuel rest

/-- Embedding of `_detect_string_builder_patterns` (src/i18n_extractor.py
lines 310-330): record each builder span's merged append value when the
span yields at least one append part and the merged value passes the content
predicate. -/
def _detect_string_builder_patterns (content : List Char)
    (acc : List (String × String)) : List (String × String) :=
  let spans1 :=
    (scanMatches (fun l => (builderNewAt l).map (fun n => (n, ([] : List Char))))
      (content.length + 1) content).map (fun kv => kv.1)
  let spans2 :=
    (scanMatches (fun l => (builderVarAt l).map (fun n => (n, ([] : List Char))))
      (content.length + 1) content).map (fun kv => kv.1)
  (spans1 ++ spans2).foldl
    (fun a span =>
      let parts := _extract_append_strings (span.length + 1) span
      if parts.isEmpty then a
      else
        let merged := _merge_append_strings parts
        if !merged.isEmpty && contains_non_english ⟨merged⟩ then
          odInsert a ⟨span⟩ ⟨merged⟩
        else a)
    acc

/-- Match attempt for the format-call regexes
`String\.format\s*\(\s*"..."[^)]*\)` and
`MessageFormat\.format\s*\(\s*"..."[^)]*\)` (src/i18n_extractor.py lines
200-203); the recorded value `re.sub(pattern, r'\1', group0)` is exactly the
captured literal. -/
def formatCallAt (fname : List Char) (l : List Char) : Option (Nat × List Char) :=
  if listStartsWith l fname then
    let l2 := l.drop fname.length
    let sp := (l2.takeWhile isPySpace).length
    match l2.drop sp with
    | '(' :: l3 =>
      let sp2 := (l3.takeWhile isPySpace).length
      match strLitAt (l3.drop sp2) with
      | some (g, slen) =>
        let l4 := (l3.drop sp2).drop slen
        let inner := l4.takeWhile (fun x => !(x == ')'))
        match l4.drop inner.length with
        | ')' :: _ =>
          some (fname.length + sp + 1 + sp2 + slen + inner.length + 1, g)
        | _ => none
      | none => none
    | _ => none
  else none

/-- Format-call pass of `detect_string_concatenation`
(src/i18n_extractor.py lines 199-214), `String.format` entries first. -/
def formatPass (content : List Char) (acc : List (String × String)) :
    List (String × String) :=
  let ms1 := scanMatches (formatCallAt "String.format".data) (content.length + 1) content
  let ms2 := scanMatches (formatCallAt "MessageFormat.format".data) (content.length + 1) content
  (ms1 ++ ms2).foldl
    (fun a kv =>
      if contains_non_english ⟨kv.2⟩ then odInsert a ⟨kv.1⟩ ⟨kv.2⟩ else a)
    acc

/-- Embedding of `detect_string_concatenation` (src/i18n_extractor.py lines
151-216): multi-line chains first, then the three single-line patterns per
line, then the builder patterns, then the format calls, accumulated into one
insertion-ordered mapping from matched span to reconstructed value. -/
def detect_string_concatenation (content : List Char) : List (String × String) :=
  let d0 := _detect_multiline_concatenation content []
  let d1 := singleLinePass (splitOnNl content) d0
  let d2 := _detect_string_builder_patterns content d1
  formatPass content d2

/-- Embedding of `extract_strings_from_file` (src/i18n_extractor.py lines
375-428) from the decoded file content on: strip comments, detect
concatenation spans, delete each recorded span text from the buffer, collect
the plain literals line by line (the line is the validity context), then add
the reconstructed values (their span is the context).  The Python `strings`
set is modelled as a duplicate-free list in insertion order; only membership
is ever used. -/
def extract_strings_from_content (content : String) : List String :=
  let cleaned := remove_comments content.data
  let concat := detect_string_concatenation cleaned
  let cleaned2 :=
    concat.foldl (fun acc p => replaceAllEmpty (acc.length + 1) acc p.1.data) cleaned
  let plain :=
    (splitOnNl cleaned2).foldl
      (fun acc line =>
        (findStringLits (line.length + 1) line).foldl
          (fun acc2 sv =>
            if is_valid_string true ⟨sv⟩ ⟨line⟩ && !acc2.contains (⟨sv⟩ : String) then
              acc2 ++ [(⟨sv⟩ : String)]
            else acc2)
          acc)
      ([] : List String)
  concat.foldl
    (fun acc p =>
      if is_valid_string true p.2 p.1 && !acc.contains p.2 then acc ++ [p.2]
      else acc)
    plain

/-! Embedding of the Catalog Store's `save_config`
(src/i18n_extractor.py lines 684-741). -/

/-- Contents of the three paths `save_config` touches: the target catalogue
file `config_path`, the backup `*.bak`, and the temporary `*.tmp`; `none`
means the file does not exist. -/
structure FS where
  target : Option String
  backup : Option String
  temp : Option String
deriving Repr, DecidableEq

/-- Fault injection for the effectful primitives of `save_config`: a `true`
field makes the corresponding call raise. -/
structure SaveFaults where
  writeTemp : Bool
  copyToBackup : Bool
  unlinkTarget : Bool
  moveTemp : Bool
  copyRestore : Bool
  unlinkTemp : Bool
deriving Repr, DecidableEq

/-- All primitives succeed. -/
def noFaults : SaveFaults :=
  ⟨false, false, false, false, false, false⟩

/-- Only the replace step (`shutil.move` of the temporary file onto the
target) fails. -/
def moveOnlyFault : SaveFaults :=
  ⟨false, false, false, true, false, false⟩

/-- Rendering of the catalogue in the `.properties` branch of `save_config`
(src/i18n_extractor.py lines 696-701): one `key=value` line per entry, in
order.  (The INI branch for other suffixes is not modelled; the
backup/replace logic under verification is identical for both.) -/
def renderProperties (config : List (String × String)) : String :=
  config.foldl (fun acc p => acc ++ p.1 ++ "=" ++ p.2 ++ "\n") ""

/-- Result of `save_config`: normal return or a propagated exception, each
with the final file-system state. -/
inductive SaveResult where
  | ok (fs : FS)
  | error (fs : FS)
deriving Repr, DecidableEq

/-- Final cleanup of the outer `except` block (src/i18n_extractor.py lines
735-741): delete the temporary file if it exists, ignoring a failure of the
deletion itself, then re-raise. -/
def cleanupTemp (f : SaveFaults) (fs : FS) : FS :=
  if fs.temp.isSome && !f.unlinkTemp then { fs with temp := none } else fs

/-- Backup restoration attempt of the inner `except` block
(src/i18n_extractor.py lines 724-730): if the backup exists, try to copy it
over the target, ignoring a failure of the copy itself. -/
def restoreFromBackup (f : SaveFaults) (fs : FS) : FS :=
  if fs.backup.isSome && !f.copyRestore then { fs with target := fs.backup } else fs

/-- Embedding of `save_config` (src/i18n_extractor.py lines 684-741): write
the rendered catalogue to the temporary path; if the target exists, copy it
to the backup path (a failure here only warns); delete the target if present
and move the temporary file onto it; on a failure of that replace step,
attempt restoration from the backup and propagate the error; on any
propagated error, delete the dangling temporary file.  A failed temporary
write leaves the temporary path as it was. -/
def save_config (f : SaveFaults) (config : List (String × String)) (fs : FS) :
    SaveResult :=
  if f.writeTemp then
    .error (cleanupTemp f fs)
  else
    let fs1 : FS := { fs with temp := some (renderProperties config) }
    let fs2 : FS :=
      if fs1.target.isSome then
        if f.copyToBackup then fs1 else { fs1 with backup := fs1.target }
      else fs1
    if fs2.target.isSome && f.unlinkTarget then
      .error (cleanupTemp f (restoreFromBackup f fs2))
    else
      let fs3 : FS := if fs2.target.isSome then { fs2 with target := none } else fs2
      if f.moveTemp then
        .error (cleanupTemp f (restoreFromBackup f fs3))
      else
        .ok { fs3 with target := fs3.temp, temp := none }

end I18n4J

namespace I18n4J

/-- Helper: a placeholder-count mismatch makes validation fail. -/
theorem validate_false_of_count_ne {src tv : String}
    (h : count_placeholders tv ≠ count_placeholders src) :
    validate_placeholder_count src tv = false := by
  simp only [validate_placeholder_count, beq_eq_false_iff_ne, ne_eq]
  exact fun hh => h hh.symm

/-- Helper: with an always-mismatching candidate stream, the retry loop runs
its full budget, stores the last candidate, and records one mismatch. -/
theorem transLoopAux_mismatch (cand : Nat → String) (key src : String)
    (h : ∀ n, count_placeholders (cand n) ≠ count_placeholders src) :
    ∀ budget calls, 0 < budget →
      transLoopAux cand key src budget calls =
        (some (cand (calls + budget - 1)),
         [⟨key, src, cand (calls + budget - 1), count_placeholders src,
           count_placeholders (cand (calls + budget - 1))⟩],
         calls + budget) := by
  intro budget
  induction budget with
  | zero => intro calls hc; omega
  | succ b ih =>
    intro calls _
    cases b with
    | zero =>
      simp [transLoopAux, validate_false_of_count_ne (h calls)]
    | succ b' =>
      have hrec := ih (calls + 1) (by omega)
      have h1 : calls + 1 + (b' + 1) - 1 = calls + (b' + 1 + 1) - 1 := by omega
      have h2 : calls + 1 + (b' + 1) = calls + (b' + 1 + 1) := by omega
      rw [h1, h2] at hrec
      rw [transLoopAux]
      simp only [validate_false_of_count_ne (h calls), Bool.false_eq_true, if_false]
      rw [if_neg (by simp)]
      exact hrec

end I18n4J

namespace I18n4J

/-- C1: for a missing target entry whose translation oracle always returns a
candidate with a placeholder count different from the source's, the loop
makes exactly 5 translation attempts, the fifth candidate is still stored as
the entry's target value, and exactly one record is appended to the
placeholder-mismatch report. -/
theorem c1_retry_bound (existing : List (String × String)) (cand : Nat → String)
    (key src : String)
    (hmissing : existing.find? (fun p => p.1 == key) = none)
    (hmismatch : ∀ n, count_placeholders (cand n) ≠ count_placeholders src) :
    processEntry existing cand key src =
      (some (cand 4),
       [⟨key, src, cand 4, count_placeholders src, count_placeholders (cand 4)⟩],
       5) := by
  have h5 := transLoopAux_mismatch cand key src hmismatch 5 0 (by omega)
  simp only [processEntry, hmissing, translateRetry]
  simpa using h5

/-- Witness for C1 at a concrete oracle and entry. -/
theorem c1_retry_bound_witness :
    processEntry [] (fun _ => "\x7bn\x7d") "k" "你好" =
      (some "\x7bn\x7d", [⟨"k", "你好", "\x7bn\x7d", 0, 1⟩], 5) := by
  have := c1_retry_bound [] (fun _ => "\x7bn\x7d") "k" "你好" (by decide)
    (fun n => by
      show count_placeholders "\x7bn\x7d" ≠ count_placeholders "你好"
      decide)
  simpa using this

/-- Helper: if the retry loop ends with an empty mismatch list and a stored
value, that value was accepted by placeholder validation. -/
theorem transLoopAux_accepted (cand : Nat → String) (key src : String) :
    ∀ budget calls tv attempts,
      transLoopAux cand key src budget calls = (some tv, [], attempts) →
      validate_placeholder_count src tv = true := by
  intro budget
  induction budget with
  | zero => intro calls tv attempts h; simp [transLoopAux] at h
  | succ b ih =>
    intro calls tv attempts h
    rw [transLoopAux] at h
    by_cases hv : validate_placeholder_count src (cand calls) = true
    · rw [if_pos hv] at h
      cases h
      exact hv
    · rw [if_neg hv] at h
      by_cases hb : (b == 0) = true
      · rw [if_pos hb] at h
        simp at h
      · rw [if_neg hb] at h
        exact ih (calls + 1) tv attempts h

/-- C2: every translation accepted before retry exhaustion — stored with no
record added to the mismatch report — has a placeholder count equal to its
source's. -/
theorem c2_accepted_placeholder_invariant (cand : Nat → String)
    (key src tv : String) (attempts : Nat)
    (h : translateRetry cand key src = (some tv, [], attempts)) :
    count_placeholders tv = count_placeholders src := by
  have := transLoopAux_accepted cand key src 5 0 tv attempts h
  simp only [validate_placeholder_count, beq_iff_eq] at this
  exact this.symm

/-- Witness for C2 at a concrete accepted translation. -/
theorem c2_accepted_placeholder_invariant_witness :
    count_placeholders "好的" = count_placeholders "OK啊" :=
  c2_accepted_placeholder_invariant (fun _ => "好的") "k" "OK啊" "好的" 1 (by decide)

/-- C10: whenever the translation oracle call fails (missing API key,
non-200 response, or an exception), `translate_property_line` returns the
source value itself, and — the source trivially matching its own placeholder
count — the retry loop accepts it on that very attempt, so the untranslated
source text is stored as the target value with no mismatch recorded. -/
theorem c10_failure_returns_source (key src lang : String) (resp : ApiOutcome)
    (oracle : Nat → ApiOutcome) (existing : List (String × String))
    (hfail : resp.isFailure = true)
    (hfirst : (oracle 0).isFailure = true)
    (hmissing : existing.find? (fun p => p.1 == key) = none) :
    translate_property_line key src lang resp = src ∧
    processEntry existing (fun n => translate_property_line key src lang (oracle n))
        key src = (some src, [], 1) := by
  have hret : ∀ r : ApiOutcome, r.isFailure = true →
      translate_property_line key src lang r = src := by
    intro r hr
    cases r with
    | noKey => rfl
    | httpError s b => rfl
    | exn m => rfl
    | ok c => simp [ApiOutcome.isFailure] at hr
  refine ⟨hret resp hfail, ?_⟩
  simp only [processEntry, hmissing, translateRetry]
  rw [transLoopAux]
  simp [hret (oracle 0) hfirst, validate_placeholder_count]

/-- Witness for C10 at a concrete failing oracle. -/
theorem c10_failure_returns_source_witness :
    translate_property_line "k" "确定\x7b0\x7d" "en" .noKey = "确定\x7b0\x7d" ∧
    processEntry []
        (fun n => translate_property_line "k" "确定\x7b0\x7d" "en"
          ((fun _ => ApiOutcome.httpError 500 "err") n)) "k" "确定\x7b0\x7d" =
      (some "确定\x7b0\x7d", [], 1) := by
  have := c10_failure_returns_source "k" "确定\x7b0\x7d" "en" .noKey
    (fun _ => ApiOutcome.httpError 500 "err") [] (by decide) (by decide) (by decide)
  exact ⟨this.1, this.2⟩

end I18n4J

namespace I18n4J

/-- C3 counterexample: the value `" 确定 "` is bound to key `"k"` in the
catalogue (as an in-run addition stores it, unstripped), yet key assignment
mints the fresh key `"确定"` instead of returning `"k"`: the query is
stripped before the comparison, so the bound value is not recognized. -/
theorem c3_counterexample :
    (("k", " 确定 ") ∈ [(("k" : String), (" 确定 " : String))]) ∧
    generate_key false (fun _ => none) 0 true (fun _ => "") "" " 确定 "
      ["k"] [("k", " 确定 ")] = .key "确定" ∧
    ("确定" : String) ≠ "k" := by
  refine ⟨by decide, by decide, by decide⟩

/-- C3 (amended): for every value bound in the catalogue whose stored form is
whitespace-stripped — which holds of every entry a catalogue loaded from disk
contains, since `load_existing_config` strips values — key assignment returns
a key already bound to that value (the first such key, hence the unique bound
key when there is only one) and never mints a second key for it. -/
theorem c3_reuse_bound_key (useAi : Bool) (resp : Nat → Option String)
    (aiFuel : Nat) (opFb : Bool) (hashHex : String → String) (modPfx : String)
    (v k : String) (keys : List String) (cfg : List (String × String))
    (hstripped : ∀ p ∈ cfg, pyStrip p.2 = p.2)
    (hbound : (k, v) ∈ cfg) :
    ∃ k', generate_key useAi resp aiFuel opFb hashHex modPfx v keys cfg = .key k' ∧
      (k', v) ∈ cfg ∧ ((∀ p ∈ cfg, p.2 = v → p.1 = k) → k' = k) := by
  have hv : pyStrip v = v := hstripped (k, v) hbound
  have hs : (cfg.find? (fun p => p.2 == pyStrip v)).isSome := by
    rw [List.find?_isSome]
    exact ⟨(k, v), hbound, by simp [hv]⟩
  obtain ⟨⟨k0, v0⟩, hp0⟩ := Option.isSome_iff_exists.mp hs
  have hp0mem : (k0, v0) ∈ cfg := List.mem_of_find?_eq_some hp0
  have hp0val : v0 = v := by
    have := List.find?_some hp0
    simp [hv] at this
    exact this
  refine ⟨k0, ?_, ?_, ?_⟩
  · simp only [generate_key]
    rw [hp0]
  · exact hp0val ▸ hp0mem
  · intro huniq
    exact huniq (k0, v0) hp0mem hp0val

/-- Witness for the amended C3 at a concrete catalogue. -/
theorem c3_reuse_bound_key_witness :
    ∃ k', generate_key false (fun _ => none) 0 true (fun _ => "") "" "确定"
        ["k"] [("k", "确定")] = .key k' ∧
      (k', "确定") ∈ [(("k" : String), ("确定" : String))] ∧
      ((∀ p ∈ [(("k" : String), ("确定" : String))], p.2 = "确定" → p.1 = "k") → k' = "k") :=
  c3_reuse_bound_key false (fun _ => none) 0 true (fun _ => "") "" "确定" "k"
    ["k"] [("k", "确定")] (by decide) (by decide)

/-- Helper for C4: against an oracle none of whose normalized candidates is
novel, the oracle loop of `generate_key` is still running after any number of
iterations — it has no other exit, the bail-out after repeated failures being
commented out in the source. -/
theorem aiKeyLoopAux_nonnovel (resp : Nat → Option String) (modPfx : String)
    (keys : List String)
    (h : ∀ n k, (ai_key_of_response (resp n)).1 = some k →
      keys.contains (modPfx ++ k) = true) :
    ∀ fuel attempt, aiKeyLoopAux resp modPfx keys fuel attempt = none := by
  intro fuel
  induction fuel with
  | zero => intro a; rfl
  | succ f ih =>
    intro a
    rw [aiKeyLoopAux]
    rcases hr : ai_key_of_response (resp a) with ⟨ok?, orig⟩
    cases ok? with
    | none => simpa [hr] using ih (a + 1)
    | some kk =>
      have hc := h a kk (by rw [hr])
      have hmem : modPfx ++ kk ∈ keys := by simpa using hc
      simp [hr, hmem, ih (a + 1)]

/-- C4: the claim's mandated bounded escape to the fallback does not exist in
the code.  When the value is not already catalogued and the oracle never
produces a novel candidate, `generate_key` on the oracle-assisted path is
still inside the `while True` loop after `fuel` iterations, for every `fuel`:
no operator-visible escape to the deterministic fallback is ever reached. -/
theorem c4_no_bounded_escape (resp : Nat → Option String) (modPfx v : String)
    (keys : List String) (cfg : List (String × String))
    (hashHex : String → String) (opFb : Bool)
    (hnotcat : cfg.find? (fun p => p.2 == pyStrip v) = none)
    (hnonnovel : ∀ n k, (ai_key_of_response (resp n)).1 = some k →
      keys.contains (modPfx ++ k) = true) :
    ∀ fuel, generate_key true resp fuel opFb hashHex modPfx v keys cfg =
      .stillLooping := by
  intro fuel
  simp [generate_key, hnotcat,
    aiKeyLoopAux_nonnovel resp modPfx keys hnonnovel fuel 0]

/-- Witness for C4 at the concrete failing input: an oracle that always
answers `login_success` while that key is already in use. -/
theorem c4_no_bounded_escape_witness :
    generate_key true (fun _ => some "login_success") 100 true (fun _ => "") ""
      "登录成功" ["login_success"] [] = .stillLooping :=
  c4_no_bounded_escape (fun _ => some "login_success") "" "登录成功"
    ["login_success"] [] (fun _ => "") true rfl
    (fun n k h => by
      have he : ai_key_of_response (some "login_success") =
          (some "login_success", some "login_success") := by decide
      rw [show ((fun _ => some ("login_success" : String)) n) =
        some ("login_success" : String) from rfl, he] at h
      injection h with h2
      subst h2
      decide) 100

end I18n4J

namespace I18n4J

/-- Helper: a key returned by the numeric-suffix loop is not in use. -/
theorem counterLoopAux_some (keys : List String) (full : String) :
    ∀ fuel c k, counterLoopAux keys full fuel c = some k →
      keys.contains k = false := by
  intro fuel
  induction fuel with
  | zero => intro c k h; simp [counterLoopAux] at h
  | succ f ih =>
    intro c k h
    rw [counterLoopAux] at h
    by_cases hc : keys.contains (full ++ "_" ++ Nat.repr c) = true
    · rw [if_pos hc] at h
      exact ih (c + 1) k h
    · rw [if_neg hc] at h
      injection h with h2
      subst h2
      exact Bool.not_eq_true _ ▸ (by simpa using hc)

/-- Helper: a key returned by the oracle loop is not in use. -/
theorem aiKeyLoopAux_some (resp : Nat → Option String) (modPfx : String)
    (keys : List String) :
    ∀ fuel a k, aiKeyLoopAux resp modPfx keys fuel a = some k →
      keys.contains k = false := by
  intro fuel
  induction fuel with
  | zero => intro a k h; simp [aiKeyLoopAux] at h
  | succ f ih =>
    intro a k h
    rw [aiKeyLoopAux] at h
    split at h
    · dsimp only at h
      split at h
      · exact ih (a + 1) k h
      · next hc =>
          injection h with h2
          subst h2
          simpa using hc
    · exact ih (a + 1) k h

/-- Helper: a key returned by `generate_key` is either the key of a catalogue
entry whose value is the stripped query (reuse), or a key not in use and
minted only after the value lookup found nothing. -/
theorem generate_key_key_cases (useAi : Bool) (resp : Nat → Option String)
    (aiFuel : Nat) (opFb : Bool) (hashHex : String → String) (modPfx : String)
    (v k : String) (keys : List String) (cfg : List (String × String))
    (h : generate_key useAi resp aiFuel opFb hashHex modPfx v keys cfg = .key k) :
    (∃ p, cfg.find? (fun q => q.2 == pyStrip v) = some p ∧ p.1 = k) ∨
    (keys.contains k = false ∧
      cfg.find? (fun q => q.2 == pyStrip v) = none) := by
  simp only [generate_key] at h
  rcases hf : cfg.find? (fun q => q.2 == pyStrip v) with _ | p
  · rw [hf] at h
    right
    refine ⟨?_, hf⟩
    by_cases hu : useAi
    · rw [if_pos hu] at h
      rcases hl : aiKeyLoopAux resp modPfx keys aiFuel 0 with _ | k'
      · rw [hl] at h
        cases h
      · rw [hl] at h
        injection h with h2
        subst h2
        exact aiKeyLoopAux_some resp modPfx keys aiFuel 0 k' hl
    · rw [if_neg hu] at h
      by_cases ho : opFb
      · rw [if_neg (by simpa using ho)] at h
        by_cases hc : keys.contains
            (modPfx ++ fallbackBase hashHex (pyStrip v) (fallbackCleaned (pyStrip v))) = true
        · rw [if_neg (by simpa using hc)] at h
          rcases hcl : counterLoopAux keys
              (modPfx ++ fallbackBase hashHex (pyStrip v) (fallbackCleaned (pyStrip v)))
              (keys.length + 1) 1 with _ | k'
          · rw [hcl] at h
            cases h
          · rw [hcl] at h
            injection h with h2
            subst h2
            exact counterLoopAux_some keys _ (keys.length + 1) 1 k' hcl
        · rw [if_pos (by simpa using hc)] at h
          injection h with h2
          subst h2
          simpa using hc
      · rw [if_pos (by simpa using ho)] at h
        cases h
  · rw [hf] at h
    injection h with h2
    exact Or.inl ⟨p, hf, h2⟩

end I18n4J

namespace I18n4J

/-- Helper: effect of one `mainStep`.  The catalogue only grows by appended
entries; the key set stays in step with the catalogue's keys; and when an
entry is appended, its key was not yet bound and the value lookup over the
catalogue at that moment found nothing. -/
theorem mainStep_spec (env : RunEnv) (st : RunState) (item : String × String)
    (hkeys : ∀ x, x ∈ st.keys ↔ x ∈ st.config.map Prod.fst) :
    ∃ added, (mainStep env st item).config = st.config ++ added ∧
      (∀ x, x ∈ (mainStep env st item).keys ↔
        x ∈ (mainStep env st item).config.map Prod.fst) ∧
      (added = [] ∨
        ∃ k, added = [(k, item.1)] ∧ k ∉ st.config.map Prod.fst ∧
          st.config.find? (fun q => q.2 == pyStrip item.1) = none) := by
  unfold mainStep
  by_cases hh : st.halted = true
  · rw [if_pos hh]
    exact ⟨[], by simp, hkeys, Or.inl rfl⟩
  · rw [if_neg hh]
    cases hg : generate_key env.useAi (env.respF item.1) env.aiFuel
        env.operatorFallback env.hashHex item.2 item.1 st.keys st.config with
    | key k =>
      dsimp only
      by_cases h1 : (lookupKey st.config k == some item.1) = true
      · rw [if_pos h1]
        exact ⟨[], by simp, hkeys, Or.inl rfl⟩
      · rw [if_neg h1]
        by_cases h2 : (lookupKey st.config k).isNone = true
        · rw [if_pos h2]
          have hlk : st.config.find? (fun p => p.1 == k) = none := by
            rcases hfk : st.config.find? (fun p => p.1 == k) with _ | p
            · exact hfk
            · simp [lookupKey, hfk] at h2
          have hfresh : k ∉ st.config.map Prod.fst := by
            intro hmem
            rw [List.find?_eq_none] at hlk
            obtain ⟨p, hp, rfl⟩ := List.mem_map.mp hmem
            exact hlk p hp (by simp)
          refine ⟨[(k, item.1)], by simp, ?_, Or.inr ⟨k, rfl, hfresh, ?_⟩⟩
          · intro x
            simp only [List.map_append, List.mem_append, List.map_cons,
              List.map_nil, List.mem_cons, List.not_mem_nil, or_false]
            exact or_congr (hkeys x) Iff.rfl
          · rcases generate_key_key_cases _ _ _ _ _ _ _ _ _ _ hg with
              ⟨p, hfind, hpk⟩ | ⟨_, hnone⟩
            · exfalso
              have hpmem := List.mem_of_find?_eq_some hfind
              rw [List.find?_eq_none] at hlk
              exact hlk p hpmem (by simp [hpk])
            · exact hnone
        · rw [if_neg h2]
          exact ⟨[], by simp, hkeys, Or.inl rfl⟩
    | exited =>
      exact ⟨[], by simp, hkeys, Or.inl rfl⟩
    | stillLooping =>
      exact ⟨[], by simp, hkeys, Or.inl rfl⟩

end I18n4J

namespace I18n4J

/-- Helper: invariants of the whole key-assignment run, by induction over the
work list. -/
theorem runExtraction_spec (env : RunEnv) :
    ∀ (items : List (String × String)) (st : RunState),
      (∀ x, x ∈ st.keys ↔ x ∈ st.config.map Prod.fst) →
      (st.config.map Prod.fst).Nodup →
      (items.map Prod.fst).Nodup →
      ∃ new, (runExtraction env items st).config = st.config ++ new ∧
        ((st.config ++ new).map Prod.fst).Nodup ∧
        (new.map Prod.snd).Nodup ∧
        (∀ p ∈ new, p.2 ∈ items.map Prod.fst) ∧
        (∀ p ∈ new, ∀ q ∈ st.config, pyStrip q.2 = q.2 → q.2 ≠ p.2) := by
  intro items
  induction items with
  | nil =>
    intro st hk hn _
    exact ⟨[], by simp [runExtraction], by simpa using hn, by simp, by simp, by simp⟩
  | cons item rest ih =>
    intro st hk hn hni
    obtain ⟨added, hcfg1, hsync1, hcase⟩ := mainStep_spec env st item hk
    have hrun : runExtraction env (item :: rest) st =
        runExtraction env rest (mainStep env st item) := rfl
    have hnodup1 : ((mainStep env st item).config.map Prod.fst).Nodup := by
      rcases hcase with rfl | ⟨k, rfl, hkfresh, _⟩
      · rw [hcfg1]
        simpa using hn
      · rw [hcfg1, List.map_append]
        rw [List.nodup_append]
        refine ⟨hn, by simp, ?_⟩
        intro a ha hb
        simp at hb
        subst hb
        exact hkfresh ha
    have hrest : (rest.map Prod.fst).Nodup := by
      have := hni
      simp only [List.map_cons] at this
      exact (List.nodup_cons.mp this).2
    have hhead : item.1 ∉ rest.map Prod.fst := by
      have := hni
      simp only [List.map_cons] at this
      exact (List.nodup_cons.mp this).1
    obtain ⟨new', hcfg2, hnod2, hvsnod2, hvin2, hne2⟩ :=
      ih (mainStep env st item) hsync1 hnodup1 hrest
    refine ⟨added ++ new', ?_, ?_, ?_, ?_, ?_⟩
    · rw [hrun, hcfg2, hcfg1, List.append_assoc]
    · rw [← List.append_assoc, ← hcfg1]
      exact hnod2
    · rcases hcase with rfl | ⟨k, rfl, _, _⟩
      · simpa using hvsnod2
      · simp only [List.map_append, List.map_cons, List.map_nil]
        rw [List.nodup_append]
        refine ⟨by simp, hvsnod2, ?_⟩
        intro a ha hb
        simp at ha
        subst ha
        obtain ⟨p, hpmem, hpsnd⟩ := List.mem_map.mp hb
        exact hhead (hpsnd ▸ hvin2 p hpmem)
    · intro p hp
      rcases List.mem_append.mp hp with hpa | hpn
      · rcases hcase with rfl | ⟨k, rfl, _, _⟩
        · simp at hpa
        · simp at hpa
          simp [hpa]
      · simp only [List.map_cons, List.mem_cons]
        exact Or.inr (hvin2 p hpn)
    · intro p hp q hq hqs
      rcases List.mem_append.mp hp with hpa | hpn
      · rcases hcase with rfl | ⟨k, rfl, _, hfindnone⟩
        · simp at hpa
        · simp at hpa
          intro heq
          have hq2 : q.2 = item.1 := by rw [heq, hpa]
          have hsp : pyStrip item.1 = item.1 := by
            rw [← hq2]
            exact hqs
          rw [List.find?_eq_none] at hfindnone
          exact hfindnone q hq (by simp [hq2, hsp])
      · have hq1 : q ∈ (mainStep env st item).config := by
          rw [hcfg1]
          exact List.mem_append_left _ hq
        exact hne2 p hpn q hq1 hqs

end I18n4J

namespace I18n4J

/-- C5: within one run, key assignment maintains uniqueness.  Starting from a
catalogue with distinct keys, a key set in step with it and disk-loaded
(stripped) values, and visiting each distinct extracted value once, the run
only appends entries; the final catalogue's keys are pairwise distinct (so no
two distinct values are bound to one key, and every appended key — minted or
reused — differs from all keys bound before it); no two appended entries
share a value; and no appended value duplicates a value already catalogued,
so no value receives a second key within the run. -/
theorem c5_key_uniqueness (env : RunEnv) (items : List (String × String))
    (st0 : RunState)
    (h1 : ∀ x, x ∈ st0.keys ↔ x ∈ st0.config.map Prod.fst)
    (h2 : (st0.config.map Prod.fst).Nodup)
    (h3 : ∀ p ∈ st0.config, pyStrip p.2 = p.2)
    (h4 : (items.map Prod.fst).Nodup) :
    ∃ new, (runExtraction env items st0).config = st0.config ++ new ∧
      ((st0.config ++ new).map Prod.fst).Nodup ∧
      (new.map Prod.snd).Nodup ∧
      (∀ p ∈ new, ∀ q ∈ st0.config, q.2 ≠ p.2) := by
  obtain ⟨new, ha, hb, hc, _, he⟩ := runExtraction_spec env items st0 h1 h2 h4
  exact ⟨new, ha, hb, hc, fun p hp q hq => he p hp q hq (h3 q hq)⟩

/-- Witness for C5 on a concrete two-value run over an empty catalogue. -/
theorem c5_key_uniqueness_witness :
    ∃ new, (runExtraction ⟨false, fun _ _ => none, 0, true, fun _ => ""⟩
        [("确定", ""), ("取消", "")] ⟨[], [], false⟩).config = [] ++ new ∧
      (([] ++ new).map Prod.fst).Nodup ∧
      (new.map Prod.snd).Nodup ∧
      (∀ p ∈ new, ∀ q ∈ ([] : List (String × String)), q.2 ≠ p.2) :=
  c5_key_uniqueness ⟨false, fun _ _ => none, 0, true, fun _ => ""⟩
    [("确定", ""), ("取消", "")] ⟨[], [], false⟩
    (fun x => by simp) (by simp) (by simp) (by decide)

end I18n4J

namespace I18n4J

/-- C6: the claim fails on the code for indented multi-line chains.  For the
file content `String m = "用户" +⏎∘∘∘∘name +⏎∘∘∘∘"已登录";` (indented
continuation lines), reconstruction consumes the chain and records its raw
span from the *stripped* lines, the recorded span therefore does not occur in
the buffer and its removal is a no-op, and the consumed fragments `用户` and
`已登录` reappear as plain literals in the extraction result.  With the same
chain unindented the recorded span matches the buffer and the fragments do
not reappear. -/
theorem c6_consumed_fragments_reappear :
    detect_string_concatenation
        (remove_comments ("String m = \"用户\" +\n    name +\n    \"已登录\";").data) =
      [("String m = \"用户\" +\nname +\n\"已登录\";", "用户\x7b\x7d已登录")] ∧
    extract_strings_from_content "String m = \"用户\" +\n    name +\n    \"已登录\";" =
      ["用户", "已登录", "用户\x7b\x7d已登录"] ∧
    extract_strings_from_content "String m = \"用户\" +\nname +\n\"已登录\";" =
      ["用户\x7b\x7d已登录"] :=
  ⟨by decide, by decide, by decide⟩

/-- C7: reconstruction of a literal-variable-literal concatenation maps the
matched span `"用户" + name + "已登录"` to the single logical value
`用户{}已登录`, which contains exactly one placeholder; and merging three
adjacent literal parts with no intervening variable yields their plain
concatenation — one merged literal, with zero placeholders on the concrete
instance. -/
theorem c7_reconstruction (a b c : List Char)
    (ha : a ≠ "\x7b\x7d".data) (hb : b ≠ "\x7b\x7d".data) (hc : c ≠ "\x7b\x7d".data) :
    (detect_string_concatenation ("String msg = \"用户\" + name + \"已登录\";").data).find?
        (fun p => p.1 == "\"用户\" + name + \"已登录\"") =
      some ("\"用户\" + name + \"已登录\"", "用户\x7b\x7d已登录") ∧
    count_placeholders "用户\x7b\x7d已登录" = 1 ∧
    _merge_concatenation_parts [a, b, c] = a ++ b ++ c ∧
    _merge_concatenation_parts ["确".data, "认".data, "吗".data] = "确认吗".data ∧
    count_placeholders "确认吗" = 0 := by
  have ha' : (a == "\x7b\x7d".data) = false := by simpa using ha
  have hb' : (b == "\x7b\x7d".data) = false := by simpa using hb
  have hc' : (c == "\x7b\x7d".data) = false := by simpa using hc
  refine ⟨by decide, by decide, ?_, by decide, by decide⟩
  simp [_merge_concatenation_parts, mergeAux, ha', hb', hc']

/-- Witness for C7 at three concrete adjacent literals. -/
theorem c7_reconstruction_witness :
    (detect_string_concatenation ("String msg = \"用户\" + name + \"已登录\";").data).find?
        (fun p => p.1 == "\"用户\" + name + \"已登录\"") =
      some ("\"用户\" + name + \"已登录\"", "用户\x7b\x7d已登录") ∧
    count_placeholders "用户\x7b\x7d已登录" = 1 ∧
    _merge_concatenation_parts ["确".data, "认".data, "吗".data] =
      "确".data ++ "认".data ++ "吗".data ∧
    _merge_concatenation_parts ["确".data, "认".data, "吗".data] = "确认吗".data ∧
    count_placeholders "确认吗" = 0 :=
  c7_reconstruction "确".data "认".data "吗".data (by decide) (by decide) (by decide)

end I18n4J

namespace I18n4J

/-- C8: the literal filter rejects `UserService` (bare identifier) and `true`
(reserved word), keeps `登录成功`, and rejects `Pure English only.` (no
character outside base ASCII); and in general a kept candidate matches no
structural exclusion rule and satisfies the content predicate. -/
theorem c8_exclusion_filtering :
    is_valid_string true "UserService" "" = false ∧
    is_valid_string true "true" "" = false ∧
    is_valid_string true "登录成功" "" = true ∧
    is_valid_string true "Pure English only." "" = false ∧
    (∀ v ctx, is_valid_string true v ctx = true →
      excludePatternsMatch (pyStripList v.data) = false ∧
        contains_non_english v = true) := by
  refine ⟨by decide, by decide, by decide, by decide, ?_⟩
  intro v ctx h
  unfold is_valid_string at h
  split_ifs at h with h1 h2 h3 h4
  any_goals simp at h
  simp only [Bool.not_eq_true] at h2 h3
  refine ⟨h2, ?_⟩
  simpa using h3

/-- Witness for C8: the general clause applied to the kept string 登录成功. -/
theorem c8_exclusion_filtering_witness :
    excludePatternsMatch (pyStripList ("登录成功").data) = false ∧
    contains_non_english "登录成功" = true :=
  c8_exclusion_filtering.2.2.2.2 "登录成功" "" (by decide)

/-- Helper: with a working temporary-file deletion, the outer cleanup always
leaves no temporary file. -/
theorem cleanupTemp_temp_none (f : SaveFaults) (hf : f.unlinkTemp = false)
    (x : FS) : (cleanupTemp f x).temp = none := by
  rcases x with ⟨a, b, _ | c⟩
  · simp [cleanupTemp]
  · simp [cleanupTemp, hf]

/-- C9: the catalogue save writes the rendered content to the temporary path
and, when nothing fails, replaces the target with it, first copying a
pre-existing target to the backup path, and leaves no temporary file; when
the replace step fails, the target is restored from the backup, the error is
propagated (an `error` result) after the restoration attempt, and the
dangling temporary file is deleted; and on any propagated failure whatsoever
(with the deletion primitive itself working) the temporary file is gone. -/
theorem c9_save_config (cfg : List (String × String)) (fs : FS) :
    (save_config noFaults cfg fs =
      .ok ⟨some (renderProperties cfg),
        if fs.target.isSome then fs.target else fs.backup, none⟩) ∧
    (∀ t, fs.target = some t →
      save_config moveOnlyFault cfg fs = .error ⟨some t, some t, none⟩) ∧
    (∀ f : SaveFaults, f.unlinkTemp = false →
      ∀ fs', save_config f cfg fs = .error fs' → fs'.temp = none) := by
  refine ⟨?_, ?_, ?_⟩
  · rcases fs with ⟨_ | t, bak, tmp⟩ <;>
      simp [save_config, noFaults]
  · intro t ht
    rcases fs with ⟨tgt, bak, tmp⟩
    simp only at ht
    subst ht
    simp [save_config, moveOnlyFault, restoreFromBackup, cleanupTemp]
  · intro f hf fs' h
    simp only [save_config] at h
    split_ifs at h
    all_goals injection h with h2
    all_goals rw [← h2]
    all_goals exact cleanupTemp_temp_none f hf _

/-- Witness for C9 at a concrete catalogue and a pre-existing target file. -/
theorem c9_save_config_witness :
    save_config moveOnlyFault [("k", "v")] ⟨some "old", none, none⟩ =
      .error ⟨some "old", some "old", none⟩ ∧
    (⟨some "old", some "old", none⟩ : FS).temp = none := by
  have h := c9_save_config [("k", "v")] ⟨some "old", none, none⟩
  have h2 := h.2.1 "old" rfl
  exact ⟨h2, h.2.2 moveOnlyFault rfl _ h2⟩

end I18n4J
